import Mathlib

/-!
Verification of the File-Lang interpreter pipeline: a shallow embedding of the
token model, lexer, AST model, parser, environment state machine and
tree-walking interpreter, together with theorems about the specified
behaviour.  Disk access and the regex engine are external collaborators in the
program; they are embedded as explicit function parameters (oracles) whose
results are threaded through the pure state-passing definitions, so every
definition below is executable.
-/

/- ### errors.rs: three error kinds, each carrying only a message -/

/-- Error type for lexing (errors.rs). -/
structure LexError where
  msg : String
deriving DecidableEq, Repr

/-- `LexError::new`. -/
def LexError.new (msg : String) : LexError := ⟨msg⟩

/-- Error type for parsing (errors.rs). -/
structure ParseError where
  msg : String
deriving DecidableEq, Repr

/-- `ParseError::new`. -/
def ParseError.new (msg : String) : ParseError := ⟨msg⟩

/-- Error type for runtime (errors.rs). -/
structure RuntimeError where
  msg : String
deriving DecidableEq, Repr

/-- `RuntimeError::new`. -/
def RuntimeError.new (msg : String) : RuntimeError := ⟨msg⟩

/- ### tokens.rs: Token and TokenKind -/

/-- `TokenKind` (tokens.rs).  The payload-bearing constructor for string
literals is named `Str` because `String` would collide with the Lean type of
its own payload; all other constructors keep their source names. -/
inductive TokenKind where
  | Open
  | Read
  | Write
  | Append
  | Close
  | Show
  | Exit
  | As
  | Truncate
  | Search
  | Replace
  | LineCount
  | Copy
  | Move
  | Remove
  | Rename
  | ListDir
  | DumpEnv
  | Help
  | Identifier (s : String)
  | Str (s : String)
  | EndOfStatement
deriving DecidableEq, Repr

/-- A token consists of a kind and a position (tokens.rs). -/
structure Token where
  kind : TokenKind
  pos : Nat
deriving DecidableEq, Repr

/-- `Token::new`. -/
def Token.new (kind : TokenKind) (pos : Nat) : Token := ⟨kind, pos⟩

/-- `TokenKind::eq_ignore_value` (tokens.rs): equality ignoring payloads. -/
def TokenKind.eq_ignore_value : TokenKind → TokenKind → Bool
  | .Open, .Open => true
  | .Read, .Read => true
  | .Write, .Write => true
  | .Append, .Append => true
  | .Close, .Close => true
  | .Show, .Show => true
  | .Exit, .Exit => true
  | .As, .As => true
  | .Truncate, .Truncate => true
  | .Search, .Search => true
  | .Replace, .Replace => true
  | .LineCount, .LineCount => true
  | .Copy, .Copy => true
  | .Move, .Move => true
  | .Remove, .Remove => true
  | .Rename, .Rename => true
  | .ListDir, .ListDir => true
  | .DumpEnv, .DumpEnv => true
  | .Help, .Help => true
  | .Identifier _, .Identifier _ => true
  | .Str _, .Str _ => true
  | .EndOfStatement, .EndOfStatement => true
  | _, _ => false

/-- `TokenKind::clone_with_value_from` (tokens.rs). -/
def TokenKind.clone_with_value_from (self other : TokenKind) : TokenKind :=
  match self with
  | .Identifier _ =>
    match other with
    | .Identifier s => .Identifier s
    | _ => self
  | .Str _ =>
    match other with
    | .Str s => .Str s
    | _ => self
  | _ => self

/- ### utils.rs: character classification, line splitting, regex collaborator -/

/-- `is_identifier_char` (utils.rs): alphanumeric, underscore, hyphen or dot.
Rust's Unicode `char::is_alphanumeric` is modelled by `Char.isAlphanum`. -/
def is_identifier_char (c : Char) : Bool :=
  c.isAlphanum || c = '_' || c = '-' || c = '.'

/-- Strip one trailing carriage return, as Rust's `str::lines` does on each
line that was terminated by a newline. -/
def stripTrailingCR (s : String) : String :=
  if s.endsWith "\r" then s.dropRight 1 else s

/-- Model of Rust's `str::lines`: split on newline, drop the empty piece
produced by a trailing newline, and strip a carriage return from every piece
that was actually followed by a newline. -/
def rustLines (s : String) : List String :=
  let parts := s.splitOn "\n"
  let withNl := parts.dropLast.map stripTrailingCR
  match parts.getLast? with
  | some "" => withNl
  | some last => withNl ++ [last]
  | none => withNl

/-- A compiled regex, as used by the program: the `regex` crate is an external
collaborator, so a compiled pattern is embedded abstractly by the two
operations the program calls on it, `is_match` and `replace_all`. -/
structure Regex where
  is_match : String → Bool
  replace_all : String → String → String

/-- The regex collaborator: `Regex::new` either compiles a pattern or fails
with a syntax-error message. -/
structure RegexEngine where
  compile : String → Except String Regex

/-- `search_in_text` (utils.rs): compile the pattern, then collect
`(line_number, line)` for each line matching it, 1-indexed. -/
def search_in_text (engine : RegexEngine) (text pattern : String) :
    Except String (List (Nat × String)) :=
  match engine.compile pattern with
  | .error e => .error e
  | .ok re =>
    .ok ((rustLines text).enum.filterMap
      (fun p => if re.is_match p.2 then some (p.1 + 1, p.2) else none))

/-- `replace_in_text` (utils.rs): compile the pattern, then replace all
non-overlapping matches in the text. -/
def replace_in_text (engine : RegexEngine) (text pattern replacement : String) :
    Except String String :=
  match engine.compile pattern with
  | .error e => .error e
  | .ok re => .ok (re.replace_all text replacement)

/- ### environment.rs: FileEntry and the Environment state machine -/

/-- A file entry holds the state of an opened file (environment.rs). -/
structure FileEntry where
  filename : String
  content : String
  is_open : Bool
deriving DecidableEq, Repr

/-- Replace the value stored under `key` in an association list, leaving the
list unchanged when the key is absent.  This models the in-place mutation
performed through `HashMap::get_mut`. -/
def updateEntry : List (String × FileEntry) → String → FileEntry →
    List (String × FileEntry)
  | [], _, _ => []
  | (k, v) :: rest, key, nv =>
    if k == key then (k, nv) :: rest else (k, v) :: updateEntry rest key nv

/-- The Environment (environment.rs): a mapping from variable names to file
entries.  `HashMap<String, FileEntry>` is embedded as an association list with
unique keys; iteration order of the hash map is unspecified in the program, so
nothing below depends on the list order beyond map semantics. -/
structure Environment where
  files : List (String × FileEntry)
deriving DecidableEq, Repr

/-- `Environment::new`. -/
def Environment.new : Environment := ⟨[]⟩

/-- `Environment::get_entry` (environment.rs): look a variable up, failing
when it is absent or its entry is not open.  `get_entry_mut` performs exactly
the same lookup and checks with the same messages; the mutation a caller
performs through the returned reference is realised below via `updateEntry`
at each call site. -/
def Environment.get_entry (env : Environment) (var_name : String) :
    Except RuntimeError FileEntry :=
  match env.files.lookup var_name with
  | none => .error (RuntimeError.new ("No such variable \x27" ++ var_name ++ "\x27"))
  | some entry =>
    if !entry.is_open then
      .error (RuntimeError.new ("Variable \x27" ++ var_name ++ "\x27 file is not open."))
    else
      .ok entry

/-- `Environment::open_file` (environment.rs).  The source first tests
`contains_key` and then unwraps `get_mut`; both are realised by one lookup.
No disk-facing collaborator is consulted: the new or reused entry starts with
empty content. -/
def Environment.open_file (env : Environment) (var_name filename : String) :
    Environment × Except RuntimeError Unit :=
  match env.files.lookup var_name with
  | some entry =>
    if entry.is_open then
      (env, .error (RuntimeError.new
        ("Variable \x27" ++ var_name ++ "\x27 already has an open file.")))
    else
      -- closed entry: reuse the slot, replace filename, clear content
      (⟨updateEntry env.files var_name ⟨filename, "", true⟩⟩, .ok ())
  | none =>
    (⟨(var_name, ⟨filename, "", true⟩) :: env.files⟩, .ok ())

/-- `Environment::read_file_content` (environment.rs).  `readF` is the
`utils::read_file_content` disk collaborator. -/
def Environment.read_file_content (readF : String → Except String String)
    (env : Environment) (var_name : String) :
    Environment × Except RuntimeError Unit :=
  match env.get_entry var_name with
  | .error e => (env, .error e)
  | .ok entry =>
    match readF entry.filename with
    | .error e =>
      (env, .error (RuntimeError.new
        ("Failed to read file \x27" ++ entry.filename ++ "\x27: " ++ e)))
    | .ok buffer =>
      (⟨updateEntry env.files var_name { entry with content := buffer }⟩, .ok ())

/-- `Environment::write_file_content` (environment.rs).  `writeF` is the
`utils::write_to_file` disk collaborator; the in-memory update happens only
after the disk call succeeds. -/
def Environment.write_file_content (writeF : String → String → Except String Unit)
    (env : Environment) (var_name text : String) :
    Environment × Except RuntimeError Unit :=
  match env.get_entry var_name with
  | .error e => (env, .error e)
  | .ok entry =>
    match writeF entry.filename text with
    | .error e =>
      (env, .error (RuntimeError.new
        ("Failed to write to file \x27" ++ entry.filename ++ "\x27: " ++ e)))
    | .ok _ =>
      (⟨updateEntry env.files var_name { entry with content := text }⟩, .ok ())

/-- `Environment::append_file_content` (environment.rs).  `appendF` is the
`utils::append_to_file` disk collaborator. -/
def Environment.append_file_content (appendF : String → String → Except String Unit)
    (env : Environment) (var_name text : String) :
    Environment × Except RuntimeError Unit :=
  match env.get_entry var_name with
  | .error e => (env, .error e)
  | .ok entry =>
    match appendF entry.filename text with
    | .error e =>
      (env, .error (RuntimeError.new
        ("Failed to append to file \x27" ++ entry.filename ++ "\x27: " ++ e)))
    | .ok _ =>
      (⟨updateEntry env.files var_name
        { entry with content := entry.content ++ text }⟩, .ok ())

/-- `Environment::get_file_content` (environment.rs): in-memory content of an
open entry. -/
def Environment.get_file_content (env : Environment) (var_name : String) :
    Except RuntimeError String :=
  match env.get_entry var_name with
  | .error e => .error e
  | .ok entry => .ok entry.content

/-- `Environment::close_file` (environment.rs).  `get_entry_mut` already
rejects closed entries, so the second `is_open` test in the source can only
confirm an open entry. -/
def Environment.close_file (env : Environment) (var_name : String) :
    Environment × Except RuntimeError Unit :=
  match env.get_entry var_name with
  | .error e => (env, .error e)
  | .ok entry =>
    if !entry.is_open then
      (env, .error (RuntimeError.new
        ("Variable \x27" ++ var_name ++ "\x27 file is not open.")))
    else
      (⟨updateEntry env.files var_name { entry with is_open := false }⟩, .ok ())

/-- `Environment::truncate_file` (environment.rs): write the empty string to
disk, then clear the in-memory content. -/
def Environment.truncate_file (writeF : String → String → Except String Unit)
    (env : Environment) (var_name : String) :
    Environment × Except RuntimeError Unit :=
  match env.get_entry var_name with
  | .error e => (env, .error e)
  | .ok entry =>
    match writeF entry.filename "" with
    | .error e =>
      (env, .error (RuntimeError.new
        ("Failed to truncate file \x27" ++ entry.filename ++ "\x27: " ++ e)))
    | .ok _ =>
      (⟨updateEntry env.files var_name { entry with content := "" }⟩, .ok ())

/-- `Environment::search_file` (environment.rs): regex search over the
in-memory content; read-only. -/
def Environment.search_file (engine : RegexEngine) (env : Environment)
    (var_name pattern : String) : Except RuntimeError (List (Nat × String)) :=
  match env.get_entry var_name with
  | .error e => .error e
  | .ok entry =>
    match search_in_text engine entry.content pattern with
    | .error e =>
      .error (RuntimeError.new ("Invalid regex \x27" ++ pattern ++ "\x27: " ++ e))
    | .ok ms => .ok ms

/-- `Environment::replace_file` (environment.rs): compute the replaced
content, write it to disk, and only then store it in memory. -/
def Environment.replace_file (engine : RegexEngine)
    (writeF : String → String → Except String Unit) (env : Environment)
    (var_name pattern replacement : String) :
    Environment × Except RuntimeError Unit :=
  match env.get_entry var_name with
  | .error e => (env, .error e)
  | .ok entry =>
    match replace_in_text engine entry.content pattern replacement with
    | .error e =>
      (env, .error (RuntimeError.new
        ("Invalid regex \x27" ++ pattern ++ "\x27: " ++ e)))
    | .ok new_content =>
      match writeF entry.filename new_content with
      | .error e =>
        (env, .error (RuntimeError.new
          ("Failed to write replaced content to file \x27" ++ entry.filename
            ++ "\x27: " ++ e)))
      | .ok _ =>
        (⟨updateEntry env.files var_name
          { entry with content := new_content }⟩, .ok ())

/-- `Environment::line_count` (environment.rs): `content.lines().count()`. -/
def Environment.line_count (env : Environment) (var_name : String) :
    Except RuntimeError Nat :=
  match env.get_entry var_name with
  | .error e => .error e
  | .ok entry => .ok (rustLines entry.content).length

/-- `Environment::rename_file` (environment.rs).  `renameF` is the
`std::fs::rename` disk collaborator; the stored filename is updated only
after the disk call succeeds. -/
def Environment.rename_file (renameF : String → String → Except String Unit)
    (env : Environment) (var_name new_filename : String) :
    Environment × Except RuntimeError Unit :=
  match env.get_entry var_name with
  | .error e => (env, .error e)
  | .ok entry =>
    match renameF entry.filename new_filename with
    | .error e =>
      (env, .error (RuntimeError.new
        ("Failed to rename file \x27" ++ entry.filename ++ "\x27 to \x27"
          ++ new_filename ++ "\x27: " ++ e)))
    | .ok _ =>
      (⟨updateEntry env.files var_name
        { entry with filename := new_filename }⟩, .ok ())

/-- `Environment::dump` (environment.rs), as the list of printed lines.  The
hash map's iteration order is unspecified; the association list order stands
in for it. -/
def Environment.dump (env : Environment) : List String :=
  "Environment Variables:" ::
    (if env.files.isEmpty then ["  (none)"] else []) ++
    env.files.map (fun p =>
      "  " ++ p.1 ++ " -> " ++ p.2.filename ++ " [" ++
        (if p.2.is_open then "open" else "closed") ++ "]")

/- ### lexer.rs -/

/-- Total UTF-8 byte length of a list of characters; tracks the byte
positions the lexer advances by. -/
def utf8Len (cs : List Char) : Nat := (cs.map Char.utf8Size).sum

/-- Rust's `str::to_lowercase`, modelled as per-character lowercasing of the
text (the two agree on all keywords-versus-identifier decisions the lexer
makes). -/
def strToLower (s : String) : String := ⟨s.data.map Char.toLower⟩

/-- `Lexer::ident_to_keyword_or_identifier` (lexer.rs): match the lowercased
text against the command keywords and `as`; anything else is an `Identifier`
carrying the original-case text. -/
def ident_to_keyword_or_identifier (ident : String) : TokenKind :=
  match strToLower ident with
  | "open" => .Open
  | "read" => .Read
  | "write" => .Write
  | "append" => .Append
  | "show" => .Show
  | "close" => .Close
  | "exit" => .Exit
  | "as" => .As
  | "truncate" => .Truncate
  | "search" => .Search
  | "replace" => .Replace
  | "linecount" => .LineCount
  | "copy" => .Copy
  | "move" => .Move
  | "remove" => .Remove
  | "rename" => .Rename
  | "listdir" => .ListDir
  | "dumpenv" => .DumpEnv
  | "help" => .Help
  | _ => .Identifier ident

/-- The main loop of `Lexer::lex` (lexer.rs), over the remaining characters
and the current byte position.  `skip_whitespace` is realised one character
per iteration (first branch); `lex_string`, `lex_identifier` and
`lex_comment` are realised by `takeWhile`/`dropWhile` exactly as their
scanning loops behave.  The trailing end-of-statement token is appended by
`Lexer.lex` below. -/
def lexLoop : List Char → Nat → Except LexError (List Token)
  | [], _ => .ok []
  | c :: rest, pos =>
    if _h1 : c.isWhitespace && c != '\n' then
      lexLoop rest (pos + c.utf8Size)
    else if _h2 : c = '"' then
      -- lex_string: consume the quote, copy verbatim until the next quote
      match hrem : rest.dropWhile (fun x => x != '"') with
      | [] =>
        .error (LexError.new
          ("Unterminated string starting at position " ++ toString (pos + 1)))
      | _ :: r2 =>
        (lexLoop r2 (pos + 1 + utf8Len (rest.takeWhile (fun x => x != '"')) + 1)).map
          (fun ts =>
            Token.new (.Str ⟨rest.takeWhile (fun x => x != '"')⟩) pos :: ts)
    else if _h3 : c.isAlpha then
      -- lex_identifier: accumulate while is_identifier_char
      (lexLoop ((c :: rest).dropWhile is_identifier_char)
          (pos + utf8Len ((c :: rest).takeWhile is_identifier_char))).map
        (fun ts =>
          Token.new
            (ident_to_keyword_or_identifier ⟨(c :: rest).takeWhile is_identifier_char⟩)
            pos :: ts)
    else if _h4 : c = '\n' then
      (lexLoop rest (pos + 1)).map (fun ts => Token.new .EndOfStatement pos :: ts)
    else if _h5 : c = ';' then
      (lexLoop rest (pos + 1)).map (fun ts => Token.new .EndOfStatement pos :: ts)
    else if _h6 : c = '#' then
      -- lex_comment: discard up to (not including) the next newline
      lexLoop ((c :: rest).dropWhile (fun x => x != '\n'))
        (pos + utf8Len ((c :: rest).takeWhile (fun x => x != '\n')))
    else
      .error (LexError.new
        ("Unexpected character \x27" ++ toString c ++ "\x27 at position "
          ++ toString pos))
termination_by cs _ => cs.length
decreasing_by
  · simp
  · have hle : ∀ l : List Char, ((l.dropWhile (fun x => x != '"')).length ≤ l.length) := by
      intro l
      induction l with
      | nil => simp
      | cons a l ih =>
        rw [List.dropWhile_cons]
        split
        · exact Nat.le_succ_of_le ih
        · exact Nat.le_refl _
    have := hle rest
    rw [hrem] at this
    simp at this ⊢
    omega
  · have hid : is_identifier_char c = true := by
      simp [is_identifier_char, Char.isAlphanum, _h3]
    have hle : ∀ l : List Char, ((l.dropWhile is_identifier_char).length ≤ l.length) := by
      intro l
      induction l with
      | nil => simp
      | cons a l ih =>
        rw [List.dropWhile_cons]
        split
        · exact Nat.le_succ_of_le ih
        · exact Nat.le_refl _
    have := hle rest
    simp [List.dropWhile_cons, hid]
    omega
  · simp
  · simp
  · have hne : (fun x => x != '\n') c = true := by simp [_h6]
    have hle : ∀ l : List Char, ((l.dropWhile (fun x => x != '\n')).length ≤ l.length) := by
      intro l
      induction l with
      | nil => simp
      | cons a l ih =>
        rw [List.dropWhile_cons]
        split
        · exact Nat.le_succ_of_le ih
        · exact Nat.le_refl _
    have := hle rest
    simp [List.dropWhile_cons, hne]
    omega

/-- `Lexer::lex` (lexer.rs): run the loop from position 0 and append the
extra trailing end-of-statement token at the final position. -/
def Lexer.lex (input : List Char) : Except LexError (List Token) :=
  (lexLoop input 0).map (fun ts => ts ++ [Token.new .EndOfStatement (utf8Len input)])

/- ### ast.rs -/

/-- The `open` statement node. -/
structure OpenStmt where
  filename : String
  var_name : String
deriving DecidableEq, Repr

/-- The `read` statement node. -/
structure ReadStmt where
  var_name : String
deriving DecidableEq, Repr

/-- The `write` statement node. -/
structure WriteStmt where
  var_name : String
  text : String
deriving DecidableEq, Repr

/-- The `append` statement node. -/
structure AppendStmt where
  var_name : String
  text : String
deriving DecidableEq, Repr

/-- The `show` statement node. -/
structure ShowStmt where
  var_name : String
deriving DecidableEq, Repr

/-- The `close` statement node. -/
structure CloseStmt where
  var_name : String
deriving DecidableEq, Repr

/-- The `truncate` statement node. -/
structure TruncateStmt where
  var_name : String
deriving DecidableEq, Repr

/-- The `search` statement node. -/
structure SearchStmt where
  var_name : String
  pattern : String
deriving DecidableEq, Repr

/-- The `replace` statement node. -/
structure ReplaceStmt where
  var_name : String
  pattern : String
  replacement : String
deriving DecidableEq, Repr

/-- The `linecount` statement node. -/
structure LineCountStmt where
  var_name : String
deriving DecidableEq, Repr

/-- The `copy` statement node. -/
structure CopyStmt where
  source : String
  destination : String
deriving DecidableEq, Repr

/-- The `move` statement node. -/
structure MoveStmt where
  source : String
  destination : String
deriving DecidableEq, Repr

/-- The `remove` statement node. -/
structure RemoveStmt where
  filename : String
deriving DecidableEq, Repr

/-- The `rename` statement node. -/
structure RenameStmt where
  var_name : String
  new_filename : String
deriving DecidableEq, Repr

/-- The `listdir` statement node. -/
structure ListDirStmt where
  path : String
deriving DecidableEq, Repr

/-- The `dumpenv` statement node. -/
structure DumpEnvStmt where
deriving DecidableEq, Repr

/-- The `help` statement node. -/
structure HelpStmt where
deriving DecidableEq, Repr

/-- The `exit` statement node. -/
structure ExitStmt where
deriving DecidableEq, Repr

/-- A statement in the language (ast.rs). -/
inductive Statement where
  | Open (s : OpenStmt)
  | Read (s : ReadStmt)
  | Write (s : WriteStmt)
  | Append (s : AppendStmt)
  | Show (s : ShowStmt)
  | Close (s : CloseStmt)
  | Truncate (s : TruncateStmt)
  | Search (s : SearchStmt)
  | Replace (s : ReplaceStmt)
  | LineCount (s : LineCountStmt)
  | Copy (s : CopyStmt)
  | Move (s : MoveStmt)
  | Remove (s : RemoveStmt)
  | Rename (s : RenameStmt)
  | ListDir (s : ListDirStmt)
  | DumpEnv (s : DumpEnvStmt)
  | Help (s : HelpStmt)
  | Exit (s : ExitStmt)
deriving DecidableEq, Repr

/-- The top-level AST (ast.rs): an ordered list of statements. -/
structure AST where
  statements : List Statement
deriving DecidableEq, Repr

/- ### parser.rs -/

/-- The `{:?}` (Debug) rendering of a token kind, used inside parse-error
messages.  The original `String` variant keeps its Rust name in this
rendering.  Rust additionally escapes special characters inside the quoted
payload; payloads are rendered verbatim here, which agrees with Rust on
payloads free of quotes, backslashes and control characters. -/
def debugKind : TokenKind → String
  | .Open => "Open"
  | .Read => "Read"
  | .Write => "Write"
  | .Append => "Append"
  | .Close => "Close"
  | .Show => "Show"
  | .Exit => "Exit"
  | .As => "As"
  | .Truncate => "Truncate"
  | .Search => "Search"
  | .Replace => "Replace"
  | .LineCount => "LineCount"
  | .Copy => "Copy"
  | .Move => "Move"
  | .Remove => "Remove"
  | .Rename => "Rename"
  | .ListDir => "ListDir"
  | .DumpEnv => "DumpEnv"
  | .Help => "Help"
  | .Identifier s => "Identifier(\"" ++ s ++ "\")"
  | .Str s => "String(\"" ++ s ++ "\")"
  | .EndOfStatement => "EndOfStatement"

/-- The parser's cursor: `rest` is the not-yet-consumed suffix of the token
vector and `pos` the index of its first token (the source stores the whole
vector plus an index; only the suffix from the index onward is ever read
while positions feed error messages). -/
structure ParserState where
  rest : List Token
  pos : Nat
deriving DecidableEq, Repr

/-- `Parser::consume_expect_string` (parser.rs). -/
def consume_expect_string (st : ParserState) (err_msg : String) :
    Except ParseError (String × ParserState) :=
  match st.rest with
  | [] => .error (ParseError.new err_msg)
  | tk :: r =>
    match tk.kind with
    | .Str s => .ok (s, ⟨r, st.pos + 1⟩)
    | k => .error (ParseError.new (err_msg ++ ": got " ++ debugKind k))

/-- `Parser::consume_expect_identifier` (parser.rs). -/
def consume_expect_identifier (st : ParserState) (err_msg : String) :
    Except ParseError (String × ParserState) :=
  match st.rest with
  | [] => .error (ParseError.new err_msg)
  | tk :: r =>
    match tk.kind with
    | .Identifier s => .ok (s, ⟨r, st.pos + 1⟩)
    | k => .error (ParseError.new (err_msg ++ ": got " ++ debugKind k))

/-- `Parser::consume_expect_token` (parser.rs). -/
def consume_expect_token (st : ParserState) (expected : TokenKind) (err_msg : String) :
    Except ParseError (TokenKind × ParserState) :=
  match st.rest with
  | [] => .error (ParseError.new err_msg)
  | tk :: r =>
    if tk.kind.eq_ignore_value expected then
      .ok (expected.clone_with_value_from tk.kind, ⟨r, st.pos + 1⟩)
    else
      .error (ParseError.new (err_msg ++ ": got " ++ debugKind tk.kind))

/-- `Parser::parse_statement` (parser.rs).  The source is a chain of
`match_token` tests on the current token; the loop only calls it with at
least one unconsumed token, so it is embedded over that head token `tk`, the
tokens after it `r`, and the index `pos` of `tk`.  A successful `match_token`
advances past `tk`, giving the state `⟨r, pos + 1⟩` the argument consumers
start from; a head token that is no statement keyword (including `As`,
payload tokens and end-of-statement) falls through to the unexpected-token
error at the unadvanced index, exactly as the source chain does. -/
def parse_statement (tk : Token) (r : List Token) (pos : Nat) :
    Except ParseError (Statement × ParserState) :=
  match tk.kind with
  | .Open =>
    match consume_expect_string ⟨r, pos + 1⟩ "Expected filename string after \x27open\x27" with
    | .error e => .error e
    | .ok (filename, st2) =>
      match consume_expect_token st2 .As "Expected \x27as\x27 after filename in open statement" with
      | .error e => .error e
      | .ok (_, st3) =>
        match consume_expect_identifier st3 "Expected variable name after \x27as\x27" with
        | .error e => .error e
        | .ok (var, st4) => .ok (.Open ⟨filename, var⟩, st4)
  | .Read =>
    match consume_expect_identifier ⟨r, pos + 1⟩ "Expected variable name after \x27read\x27" with
    | .error e => .error e
    | .ok (var, st2) => .ok (.Read ⟨var⟩, st2)
  | .Write =>
    match consume_expect_identifier ⟨r, pos + 1⟩ "Expected variable name after \x27write\x27" with
    | .error e => .error e
    | .ok (var, st2) =>
      match consume_expect_string st2 "Expected string after variable in \x27write\x27" with
      | .error e => .error e
      | .ok (text, st3) => .ok (.Write ⟨var, text⟩, st3)
  | .Append =>
    match consume_expect_identifier ⟨r, pos + 1⟩ "Expected variable name after \x27append\x27" with
    | .error e => .error e
    | .ok (var, st2) =>
      match consume_expect_string st2 "Expected string after variable in \x27append\x27" with
      | .error e => .error e
      | .ok (text, st3) => .ok (.Append ⟨var, text⟩, st3)
  | .Show =>
    match consume_expect_identifier ⟨r, pos + 1⟩ "Expected variable name after \x27show\x27" with
    | .error e => .error e
    | .ok (var, st2) => .ok (.Show ⟨var⟩, st2)
  | .Close =>
    match consume_expect_identifier ⟨r, pos + 1⟩ "Expected variable name after \x27close\x27" with
    | .error e => .error e
    | .ok (var, st2) => .ok (.Close ⟨var⟩, st2)
  | .Truncate =>
    match consume_expect_identifier ⟨r, pos + 1⟩ "Expected variable name after \x27truncate\x27" with
    | .error e => .error e
    | .ok (var, st2) => .ok (.Truncate ⟨var⟩, st2)
  | .Search =>
    match consume_expect_identifier ⟨r, pos + 1⟩ "Expected variable name after \x27search\x27" with
    | .error e => .error e
    | .ok (var, st2) =>
      match consume_expect_string st2 "Expected pattern string after variable in \x27search\x27" with
      | .error e => .error e
      | .ok (pattern, st3) => .ok (.Search ⟨var, pattern⟩, st3)
  | .Replace =>
    match consume_expect_identifier ⟨r, pos + 1⟩ "Expected variable name after \x27replace\x27" with
    | .error e => .error e
    | .ok (var, st2) =>
      match consume_expect_string st2 "Expected pattern string after variable in \x27replace\x27" with
      | .error e => .error e
      | .ok (pattern, st3) =>
        match consume_expect_string st3 "Expected replacement string after pattern in \x27replace\x27" with
        | .error e => .error e
        | .ok (replacement, st4) => .ok (.Replace ⟨var, pattern, replacement⟩, st4)
  | .LineCount =>
    match consume_expect_identifier ⟨r, pos + 1⟩ "Expected variable name after \x27linecount\x27" with
    | .error e => .error e
    | .ok (var, st2) => .ok (.LineCount ⟨var⟩, st2)
  | .Copy =>
    match consume_expect_string ⟨r, pos + 1⟩ "Expected source filename after \x27copy\x27" with
    | .error e => .error e
    | .ok (src, st2) =>
      match consume_expect_string st2 "Expected destination filename after source in \x27copy\x27" with
      | .error e => .error e
      | .ok (dst, st3) => .ok (.Copy ⟨src, dst⟩, st3)
  | .Move =>
    match consume_expect_string ⟨r, pos + 1⟩ "Expected source filename after \x27move\x27" with
    | .error e => .error e
    | .ok (src, st2) =>
      match consume_expect_string st2 "Expected destination filename after source in \x27move\x27" with
      | .error e => .error e
      | .ok (dst, st3) => .ok (.Move ⟨src, dst⟩, st3)
  | .Remove =>
    match consume_expect_string ⟨r, pos + 1⟩ "Expected filename after \x27remove\x27" with
    | .error e => .error e
    | .ok (fname, st2) => .ok (.Remove ⟨fname⟩, st2)
  | .Rename =>
    match consume_expect_identifier ⟨r, pos + 1⟩ "Expected variable name after \x27rename\x27" with
    | .error e => .error e
    | .ok (var, st2) =>
      match consume_expect_string st2 "Expected new filename after variable in \x27rename\x27" with
      | .error e => .error e
      | .ok (new_fname, st3) => .ok (.Rename ⟨var, new_fname⟩, st3)
  | .ListDir =>
    match consume_expect_string ⟨r, pos + 1⟩ "Expected directory path after \x27listdir\x27" with
    | .error e => .error e
    | .ok (path, st2) => .ok (.ListDir ⟨path⟩, st2)
  | .DumpEnv => .ok (.DumpEnv ⟨⟩, ⟨r, pos + 1⟩)
  | .Help => .ok (.Help ⟨⟩, ⟨r, pos + 1⟩)
  | .Exit => .ok (.Exit ⟨⟩, ⟨r, pos + 1⟩)
  | k =>
    .error (ParseError.new
      ("Unexpected token " ++ debugKind k ++ " at position " ++ toString pos))

/-- A successful `consume_expect_string` consumes exactly one token. -/
theorem consume_expect_string_rest {st : ParserState} {m s : String}
    {st' : ParserState} (h : consume_expect_string st m = .ok (s, st')) :
    st'.rest.length + 1 = st.rest.length := by
  unfold consume_expect_string at h
  split at h
  · exact absurd h (by simp)
  · next tk r heq =>
    split at h
    · simp only [Except.ok.injEq, Prod.mk.injEq] at h
      rw [← h.2]
      simp [heq]
    · exact absurd h (by simp)

/-- A successful `consume_expect_identifier` consumes exactly one token. -/
theorem consume_expect_identifier_rest {st : ParserState} {m s : String}
    {st' : ParserState} (h : consume_expect_identifier st m = .ok (s, st')) :
    st'.rest.length + 1 = st.rest.length := by
  unfold consume_expect_identifier at h
  split at h
  · exact absurd h (by simp)
  · next tk r heq =>
    split at h
    · simp only [Except.ok.injEq, Prod.mk.injEq] at h
      rw [← h.2]
      simp [heq]
    · exact absurd h (by simp)

/-- A successful `consume_expect_token` consumes exactly one token. -/
theorem consume_expect_token_rest {st : ParserState} {exp : TokenKind}
    {m : String} {k : TokenKind} {st' : ParserState}
    (h : consume_expect_token st exp m = .ok (k, st')) :
    st'.rest.length + 1 = st.rest.length := by
  unfold consume_expect_token at h
  split at h
  · exact absurd h (by simp)
  · next tk r heq =>
    split at h
    · simp only [Except.ok.injEq, Prod.mk.injEq] at h
      rw [← h.2]
      simp [heq]
    · exact absurd h (by simp)

/-- A successful `parse_statement` never consumes more than the head token
and the tokens after it: the remaining suffix is no longer than `r`. -/
theorem parse_statement_rest_le {tk : Token} {r : List Token} {pos : Nat}
    {stmt : Statement} {st' : ParserState}
    (h : parse_statement tk r pos = .ok (stmt, st')) :
    st'.rest.length ≤ r.length := by
  unfold parse_statement at h
  split at h
  -- open
  · split at h
    · simp at h
    · rename_i xA vA stA hA
      split at h
      · simp at h
      · rename_i xB vB stB hB
        split at h
        · simp at h
        · rename_i xC vC stC hC
          simp only [Except.ok.injEq, Prod.mk.injEq] at h
          obtain ⟨-, h2⟩ := h
          subst h2
          have eA := consume_expect_string_rest hA
          have eB := consume_expect_token_rest hB
          have eC := consume_expect_identifier_rest hC
          simp at eA
          omega
  -- read
  · split at h
    · simp at h
    · rename_i xA vA stA hA
      simp only [Except.ok.injEq, Prod.mk.injEq] at h
      obtain ⟨-, h2⟩ := h
      subst h2
      have eA := consume_expect_identifier_rest hA
      simp at eA
      omega
  -- write
  · split at h
    · simp at h
    · rename_i xA vA stA hA
      split at h
      · simp at h
      · rename_i xB vB stB hB
        simp only [Except.ok.injEq, Prod.mk.injEq] at h
        obtain ⟨-, h2⟩ := h
        subst h2
        have eA := consume_expect_identifier_rest hA
        have eB := consume_expect_string_rest hB
        simp at eA
        omega
  -- append
  · split at h
    · simp at h
    · rename_i xA vA stA hA
      split at h
      · simp at h
      · rename_i xB vB stB hB
        simp only [Except.ok.injEq, Prod.mk.injEq] at h
        obtain ⟨-, h2⟩ := h
        subst h2
        have eA := consume_expect_identifier_rest hA
        have eB := consume_expect_string_rest hB
        simp at eA
        omega
  -- show
  · split at h
    · simp at h
    · rename_i xA vA stA hA
      simp only [Except.ok.injEq, Prod.mk.injEq] at h
      obtain ⟨-, h2⟩ := h
      subst h2
      have eA := consume_expect_identifier_rest hA
      simp at eA
      omega
  -- close
  · split at h
    · simp at h
    · rename_i xA vA stA hA
      simp only [Except.ok.injEq, Prod.mk.injEq] at h
      obtain ⟨-, h2⟩ := h
      subst h2
      have eA := consume_expect_identifier_rest hA
      simp at eA
      omega
  -- truncate
  · split at h
    · simp at h
    · rename_i xA vA stA hA
      simp only [Except.ok.injEq, Prod.mk.injEq] at h
      obtain ⟨-, h2⟩ := h
      subst h2
      have eA := consume_expect_identifier_rest hA
      simp at eA
      omega
  -- search
  · split at h
    · simp at h
    · rename_i xA vA stA hA
      split at h
      · simp at h
      · rename_i xB vB stB hB
        simp only [Except.ok.injEq, Prod.mk.injEq] at h
        obtain ⟨-, h2⟩ := h
        subst h2
        have eA := consume_expect_identifier_rest hA
        have eB := consume_expect_string_rest hB
        simp at eA
        omega
  -- replace
  · split at h
    · simp at h
    · rename_i xA vA stA hA
      split at h
      · simp at h
      · rename_i xB vB stB hB
        split at h
        · simp at h
        · rename_i xC vC stC hC
          simp only [Except.ok.injEq, Prod.mk.injEq] at h
          obtain ⟨-, h2⟩ := h
          subst h2
          have eA := consume_expect_identifier_rest hA
          have eB := consume_expect_string_rest hB
          have eC := consume_expect_string_rest hC
          simp at eA
          omega
  -- linecount
  · split at h
    · simp at h
    · rename_i xA vA stA hA
      simp only [Except.ok.injEq, Prod.mk.injEq] at h
      obtain ⟨-, h2⟩ := h
      subst h2
      have eA := consume_expect_identifier_rest hA
      simp at eA
      omega
  -- copy
  · split at h
    · simp at h
    · rename_i xA vA stA hA
      split at h
      · simp at h
      · rename_i xB vB stB hB
        simp only [Except.ok.injEq, Prod.mk.injEq] at h
        obtain ⟨-, h2⟩ := h
        subst h2
        have eA := consume_expect_string_rest hA
        have eB := consume_expect_string_rest hB
        simp at eA
        omega
  -- move
  · split at h
    · simp at h
    · rename_i xA vA stA hA
      split at h
      · simp at h
      · rename_i xB vB stB hB
        simp only [Except.ok.injEq, Prod.mk.injEq] at h
        obtain ⟨-, h2⟩ := h
        subst h2
        have eA := consume_expect_string_rest hA
        have eB := consume_expect_string_rest hB
        simp at eA
        omega
  -- remove
  · split at h
    · simp at h
    · rename_i xA vA stA hA
      simp only [Except.ok.injEq, Prod.mk.injEq] at h
      obtain ⟨-, h2⟩ := h
      subst h2
      have eA := consume_expect_string_rest hA
      simp at eA
      omega
  -- rename
  · split at h
    · simp at h
    · rename_i xA vA stA hA
      split at h
      · simp at h
      · rename_i xB vB stB hB
        simp only [Except.ok.injEq, Prod.mk.injEq] at h
        obtain ⟨-, h2⟩ := h
        subst h2
        have eA := consume_expect_identifier_rest hA
        have eB := consume_expect_string_rest hB
        simp at eA
        omega
  -- listdir
  · split at h
    · simp at h
    · rename_i xA vA stA hA
      simp only [Except.ok.injEq, Prod.mk.injEq] at h
      obtain ⟨-, h2⟩ := h
      subst h2
      have eA := consume_expect_string_rest hA
      simp at eA
      omega
  -- dumpenv
  · simp only [Except.ok.injEq, Prod.mk.injEq] at h
    obtain ⟨-, h2⟩ := h
    subst h2
    simp
  -- help
  · simp only [Except.ok.injEq, Prod.mk.injEq] at h
    obtain ⟨-, h2⟩ := h
    subst h2
    simp
  -- exit
  · simp only [Except.ok.injEq, Prod.mk.injEq] at h
    obtain ⟨-, h2⟩ := h
    subst h2
    simp
  -- non-keyword head: unexpected-token error, no ok result
  all_goals simp at h

/-- The top-level loop of `Parser::parse` (parser.rs): stray end-of-statement
tokens are consumed silently; otherwise one statement is parsed, after which
anything except end-of-statement or end-of-input is the
expected-end-of-statement error; the separator (if any) is then consumed,
its absence at end-of-input being ignored (`.ok()`). -/
def parseLoop (st : ParserState) : Except ParseError (List Statement) :=
  match h1 : st.rest with
  | [] => .ok []
  | tk :: r =>
    match tk.kind with
    | .EndOfStatement => parseLoop ⟨r, st.pos + 1⟩
    | _ =>
      match hps : parse_statement tk r st.pos with
      | .error e => .error e
      | .ok (stmt, st') =>
        match h2 : st'.rest with
        | [] => .ok [stmt]
        | tk2 :: r2 =>
          match tk2.kind with
          | .EndOfStatement =>
            match parseLoop ⟨r2, st'.pos + 1⟩ with
            | .error e => .error e
            | .ok stmts => .ok (stmt :: stmts)
          | k2 =>
            .error (ParseError.new ("Expected end of statement at position "
              ++ toString st'.pos ++ " but found " ++ debugKind k2))
termination_by st.rest.length
decreasing_by
  · simp [h1]
  · have hle := parse_statement_rest_le hps
    rw [h2] at hle
    simp only [List.length_cons] at hle
    simp [h1]
    omega

/-- `Parser::parse` (parser.rs): run the loop from index 0 over the whole
token vector. -/
def Parser.parse (tokens : List Token) : Except ParseError AST :=
  match parseLoop ⟨tokens, 0⟩ with
  | .error e => .error e
  | .ok stmts => .ok ⟨stmts⟩

/- ### interpreter.rs -/

/-- `help_text` (commands.rs), abbreviated to its identity for this
development: its exact contents never influence control flow.  It is kept
abstract-but-concrete as the literal the interpreter prints. -/
def help_text : String :=
  "\nAvailable commands:\n\nBasic File Operations:\n  open \"filename\" as var      - Open a file and assign it to a variable\n  read var                    - Read the file content from disk into memory\n  write var \"text\"            - Overwrite the file with the given text\n  append var \"text\"           - Append text to the end of the file\n  show var                    - Print the in-memory content of the file\n  close var                   - Close the file associated with the variable\n  truncate var                - Clear the file content (both in memory and on disk)\n\nAdvanced File Operations:\n  search var \"pattern\"        - Search for regex pattern in the file content\n  replace var \"pattern\" \"replacement\"\n                             - Replace all occurrences of the pattern with the replacement\n  linecount var               - Show the number of lines in the file\n  rename var \"newfilename\"    - Rename the file associated with var\n\nFile System Operations:\n  copy \"source\" \"destination\" - Copy a file on disk\n  move \"source\" \"destination\" - Move/rename a file on disk\n  remove \"filename\"           - Remove a file from disk\n\nDirectory and Environment:\n  listdir \"path\"              - List files in a directory\n  dumpenv                     - Show all variables, their files, and open/closed state\n\nMiscellaneous:\n  help                        - Show this help message\n  exit                        - Exit the interpreter\n\nEnd of Statement:\n  Statements can end with a newline or a semicolon.\n\nNote:\n  Patterns are regular expressions (using Rust\x27s \x27regex\x27 crate syntax).\n  Filenames and text must be in double quotes.\n"

/-- The bundle of external collaborators the interpreter consults: the regex
engine plus one result function per disk-facing call of utils.rs
(`read_file_content`, `write_to_file`, `append_to_file`, `std::fs::rename`,
`copy_file`, `move_file`, `remove_file`, `list_directory`). -/
structure Oracle where
  engine : RegexEngine
  readF : String → Except String String
  writeF : String → String → Except String Unit
  appendF : String → String → Except String Unit
  renameF : String → String → Except String Unit
  copyF : String → String → Except String Nat
  moveF : String → String → Except String Unit
  removeF : String → Except String Unit
  listDirF : String → Except String (List String)

/-- The interpreter state (interpreter.rs): an environment and a stop flag. -/
structure Interpreter where
  env : Environment
  stop : Bool
deriving Repr

/-- `Interpreter::new`. -/
def Interpreter.new : Interpreter := ⟨Environment.new, false⟩

/-- `Interpreter::execute_statement` (interpreter.rs), returning the next
interpreter state, the list of lines printed to the console (one element per
`println!`) and the statement's outcome. -/
def Interpreter.execute_statement (o : Oracle) (it : Interpreter)
    (stmt : Statement) : Interpreter × List String × Except RuntimeError Unit :=
  match stmt with
  | .Open s =>
    let p := it.env.open_file s.var_name s.filename
    ({ it with env := p.1 }, [], p.2)
  | .Read s =>
    let p := Environment.read_file_content o.readF it.env s.var_name
    ({ it with env := p.1 }, [], p.2)
  | .Write s =>
    let p := Environment.write_file_content o.writeF it.env s.var_name s.text
    ({ it with env := p.1 }, [], p.2)
  | .Append s =>
    let p := Environment.append_file_content o.appendF it.env s.var_name s.text
    ({ it with env := p.1 }, [], p.2)
  | .Show s =>
    match it.env.get_file_content s.var_name with
    | .error e => (it, [], .error e)
    | .ok content => (it, [content], .ok ())
  | .Close s =>
    let p := it.env.close_file s.var_name
    ({ it with env := p.1 }, [], p.2)
  | .Truncate s =>
    let p := Environment.truncate_file o.writeF it.env s.var_name
    ({ it with env := p.1 }, [], p.2)
  | .Search s =>
    match Environment.search_file o.engine it.env s.var_name s.pattern with
    | .error e => (it, [], .error e)
    | .ok ms =>
      (it,
        (if ms.isEmpty then ["No matches found."]
         else ms.map (fun p => toString p.1 ++ ": " ++ p.2)),
        .ok ())
  | .Replace s =>
    let p := Environment.replace_file o.engine o.writeF it.env
      s.var_name s.pattern s.replacement
    ({ it with env := p.1 }, [], p.2)
  | .LineCount s =>
    match it.env.line_count s.var_name with
    | .error e => (it, [], .error e)
    | .ok count => (it, [toString count ++ " lines"], .ok ())
  | .Copy s =>
    match o.copyF s.source s.destination with
    | .error e =>
      (it, [], .error (RuntimeError.new
        ("Failed to copy file \x27" ++ s.source ++ "\x27 to \x27"
          ++ s.destination ++ "\x27: " ++ e)))
    | .ok _ => (it, [], .ok ())
  | .Move s =>
    match o.moveF s.source s.destination with
    | .error e =>
      (it, [], .error (RuntimeError.new
        ("Failed to move file \x27" ++ s.source ++ "\x27 to \x27"
          ++ s.destination ++ "\x27: " ++ e)))
    | .ok _ => (it, [], .ok ())
  | .Remove s =>
    match o.removeF s.filename with
    | .error e =>
      (it, [], .error (RuntimeError.new
        ("Failed to remove file \x27" ++ s.filename ++ "\x27: " ++ e)))
    | .ok _ => (it, [], .ok ())
  | .Rename s =>
    let p := Environment.rename_file o.renameF it.env s.var_name s.new_filename
    ({ it with env := p.1 }, [], p.2)
  | .ListDir s =>
    match o.listDirF s.path with
    | .error e =>
      (it, [], .error (RuntimeError.new
        ("Failed to list directory \x27" ++ s.path ++ "\x27: " ++ e)))
    | .ok listing =>
      (it, (if listing.isEmpty then ["(empty directory)"] else listing), .ok ())
  | .DumpEnv _ => (it, it.env.dump, .ok ())
  | .Help _ => (it, [help_text], .ok ())
  | .Exit _ => ({ it with stop := true }, [], .ok ())

/-- `Interpreter::run` (interpreter.rs): execute statements in order,
checking the stop flag before each one; the first failure aborts the run,
and remaining statements after a stop are discarded without error. -/
def Interpreter.run (o : Oracle) (it : Interpreter) :
    List Statement → Interpreter × List String × Except RuntimeError Unit
  | [] => (it, [], .ok ())
  | stmt :: rest =>
    if it.stop then
      (it, [], .ok ())
    else
      match Interpreter.execute_statement o it stmt with
      | (it2, out, .error e) => (it2, out, .error e)
      | (it2, out, .ok _) =>
        let q := Interpreter.run o it2 rest
        (q.1, out ++ q.2.1, q.2.2)

/- ### Shared lemmas about the environment map -/

/-- Updating the entry stored under a bound key makes the new value the one
looked up afterwards. -/
theorem lookup_updateEntry_self {l : List (String × FileEntry)} {k : String}
    {e : FileEntry} (nv : FileEntry) (h : l.lookup k = some e) :
    (updateEntry l k nv).lookup k = some nv := by
  induction l with
  | nil => simp [List.lookup] at h
  | cons a l ih =>
    obtain ⟨k1, v1⟩ := a
    by_cases hk : k1 = k
    · subst hk
      simp [updateEntry, List.lookup]
    · have hb1 : (k1 == k) = false := by simp [hk]
      have hb2 : (k == k1) = false := by simp [Ne.symm hk]
      rw [List.lookup] at h
      rw [hb2] at h
      simp only [updateEntry, hb1, if_false, List.lookup, hb2]
      exact ih h

/-- `get_entry` on an absent variable. -/
theorem get_entry_absent {env : Environment} {v : String}
    (h : env.files.lookup v = none) :
    env.get_entry v =
      .error (RuntimeError.new ("No such variable \x27" ++ v ++ "\x27")) := by
  unfold Environment.get_entry
  rw [h]

/-- `get_entry` on a closed entry. -/
theorem get_entry_closed {env : Environment} {v : String} {e : FileEntry}
    (h : env.files.lookup v = some e) (hc : e.is_open = false) :
    env.get_entry v =
      .error (RuntimeError.new
        ("Variable \x27" ++ v ++ "\x27 file is not open.")) := by
  unfold Environment.get_entry
  rw [h]
  simp [hc]

/-- `get_entry` on an open entry. -/
theorem get_entry_open {env : Environment} {v : String} {e : FileEntry}
    (h : env.files.lookup v = some e) (ho : e.is_open = true) :
    env.get_entry v = .ok e := by
  unfold Environment.get_entry
  rw [h]
  simp [ho]

/- ### The claims -/

/-- C1: `open_file` succeeds on an absent variable (fresh entry with the
given filename, empty content, open), succeeds on a closed entry (the slot is
reused with the new filename, content cleared, reopened), and fails with the
already-has-an-open-file error on an open entry; `close_file` closes an open
entry in place and fails when the variable is absent or its entry is already
closed. -/
theorem C1_open_close_state_machine (env : Environment) (v f : String) :
    (env.files.lookup v = none →
      env.open_file v f = (⟨(v, ⟨f, "", true⟩) :: env.files⟩, .ok ())) ∧
    (∀ e : FileEntry, env.files.lookup v = some e → e.is_open = false →
      env.open_file v f = (⟨updateEntry env.files v ⟨f, "", true⟩⟩, .ok ())) ∧
    (∀ e : FileEntry, env.files.lookup v = some e → e.is_open = true →
      env.open_file v f = (env, .error (RuntimeError.new
        ("Variable \x27" ++ v ++ "\x27 already has an open file.")))) ∧
    (∀ e : FileEntry, env.files.lookup v = some e → e.is_open = true →
      env.close_file v =
        (⟨updateEntry env.files v { e with is_open := false }⟩, .ok ())) ∧
    (env.files.lookup v = none →
      env.close_file v = (env, .error (RuntimeError.new
        ("No such variable \x27" ++ v ++ "\x27")))) ∧
    (∀ e : FileEntry, env.files.lookup v = some e → e.is_open = false →
      env.close_file v = (env, .error (RuntimeError.new
        ("Variable \x27" ++ v ++ "\x27 file is not open.")))) := by
  refine ⟨?_, ?_, ?_, ?_, ?_, ?_⟩
  · intro h
    unfold Environment.open_file
    rw [h]
  · intro e he hc
    unfold Environment.open_file
    rw [he]
    simp [hc]
  · intro e he ho
    unfold Environment.open_file
    rw [he]
    simp [ho]
  · intro e he ho
    unfold Environment.close_file
    rw [get_entry_open he ho]
    simp [ho]
  · intro h
    unfold Environment.close_file
    rw [get_entry_absent h]
  · intro e he hc
    unfold Environment.close_file
    rw [get_entry_closed he hc]

/-- Witness for C1: opening a fresh variable in the empty environment. -/
theorem C1_open_close_state_machine_witness :
    (Environment.mk []).open_file "f" "a.txt" =
      (⟨[("f", ⟨"a.txt", "", true⟩)]⟩, .ok ()) :=
  (C1_open_close_state_machine ⟨[]⟩ "f" "a.txt").1 rfl

/-- C10: `open_file` consults no disk collaborator (its embedding takes
none); it fails exactly when the variable is currently bound to an open
entry — in particular it succeeds regardless of what exists on disk — and on
success the variable maps to an entry with the requested filename, empty
content and the open flag set; the on-disk content only reaches memory
through a subsequent `read_file_content`, which stores the read
collaborator's result. -/
theorem C10_open_file_no_disk_access (env : Environment) (v f : String) :
    ((∃ err, (env.open_file v f).2 = .error err) ↔
      (∃ e : FileEntry, env.files.lookup v = some e ∧ e.is_open = true)) ∧
    (∀ e : FileEntry, env.files.lookup v = some e → e.is_open = false →
      ((env.open_file v f).1.files.lookup v = some ⟨f, "", true⟩ ∧
        (env.open_file v f).2 = .ok ())) ∧
    (env.files.lookup v = none →
      ((env.open_file v f).1.files.lookup v = some ⟨f, "", true⟩ ∧
        (env.open_file v f).2 = .ok ())) ∧
    (∀ (readF : String → Except String String) (fn c d : String),
      env.files.lookup v = some ⟨fn, c, true⟩ → readF fn = .ok d →
      Environment.read_file_content readF env v =
        (⟨updateEntry env.files v ⟨fn, d, true⟩⟩, .ok ())) := by
  refine ⟨⟨?_, ?_⟩, ?_, ?_, ?_⟩
  · rintro ⟨err, herr⟩
    unfold Environment.open_file at herr
    cases hl : env.files.lookup v with
    | none =>
      rw [hl] at herr
      simp at herr
    | some e =>
      rw [hl] at herr
      by_cases ho : e.is_open
      · exact ⟨e, rfl, ho⟩
      · simp [ho] at herr
  · rintro ⟨e, he, ho⟩
    unfold Environment.open_file
    rw [he]
    simp [ho]
  · intro e he hc
    unfold Environment.open_file
    rw [he]
    simp [hc]
    exact lookup_updateEntry_self _ he
  · intro h
    unfold Environment.open_file
    rw [h]
    simp [List.lookup]
  · intro readF fn c d he hr
    unfold Environment.read_file_content
    rw [get_entry_open he rfl]
    simp [hr]

/-- Witness for C10: on a closed entry, opening succeeds and resets the
entry. -/
theorem C10_open_file_no_disk_access_witness :
    ((Environment.mk [("f", ⟨"old.txt", "stale", false⟩)]).open_file "f" "new.txt").1.files.lookup "f" =
        some ⟨"new.txt", "", true⟩ ∧
    ((Environment.mk [("f", ⟨"old.txt", "stale", false⟩)]).open_file "f" "new.txt").2 = .ok () :=
  (C10_open_file_no_disk_access ⟨[("f", ⟨"old.txt", "stale", false⟩)]⟩ "f" "new.txt").2.1
    ⟨"old.txt", "stale", false⟩ rfl rfl

/-- C2: for each of `write_file_content`, `append_file_content`,
`truncate_file`, `replace_file` and `rename_file`, when the disk-facing
collaborator call fails the operation reports the wrapped error and returns
the environment exactly as it was before the call — the in-memory
`content`/`filename` update happens only after the disk call succeeds, so no
partial mutation occurs. -/
theorem C2_no_partial_mutation_on_disk_failure (env : Environment)
    (v text newf pat repl msg : String)
    (writeF appendF renameF : String → String → Except String Unit)
    (engine : RegexEngine) :
    (∀ e : FileEntry, env.get_entry v = .ok e →
      writeF e.filename text = .error msg →
      Environment.write_file_content writeF env v text =
        (env, .error (RuntimeError.new
          ("Failed to write to file \x27" ++ e.filename ++ "\x27: " ++ msg)))) ∧
    (∀ e : FileEntry, env.get_entry v = .ok e →
      appendF e.filename text = .error msg →
      Environment.append_file_content appendF env v text =
        (env, .error (RuntimeError.new
          ("Failed to append to file \x27" ++ e.filename ++ "\x27: " ++ msg)))) ∧
    (∀ e : FileEntry, env.get_entry v = .ok e →
      writeF e.filename "" = .error msg →
      Environment.truncate_file writeF env v =
        (env, .error (RuntimeError.new
          ("Failed to truncate file \x27" ++ e.filename ++ "\x27: " ++ msg)))) ∧
    (∀ (e : FileEntry) (re : Regex), env.get_entry v = .ok e →
      engine.compile pat = .ok re →
      writeF e.filename (re.replace_all e.content repl) = .error msg →
      Environment.replace_file engine writeF env v pat repl =
        (env, .error (RuntimeError.new
          ("Failed to write replaced content to file \x27" ++ e.filename
            ++ "\x27: " ++ msg)))) ∧
    (∀ e : FileEntry, env.get_entry v = .ok e →
      renameF e.filename newf = .error msg →
      Environment.rename_file renameF env v newf =
        (env, .error (RuntimeError.new
          ("Failed to rename file \x27" ++ e.filename ++ "\x27 to \x27"
            ++ newf ++ "\x27: " ++ msg)))) := by
  refine ⟨?_, ?_, ?_, ?_, ?_⟩
  · intro e he hd
    simp only [Environment.write_file_content, he, hd]
  · intro e he hd
    simp only [Environment.append_file_content, he, hd]
  · intro e he hd
    simp only [Environment.truncate_file, he, hd]
  · intro e re he hc hd
    simp only [Environment.replace_file, he, replace_in_text, hc, hd]
  · intro e he hd
    simp only [Environment.rename_file, he, hd]

/-- Witness for C2: a failing disk write leaves a bound open variable's
environment untouched. -/
theorem C2_no_partial_mutation_on_disk_failure_witness :
    Environment.write_file_content (fun _ _ => .error "disk full")
        ⟨[("f", ⟨"a.txt", "old", true⟩)]⟩ "f" "new" =
      (⟨[("f", ⟨"a.txt", "old", true⟩)]⟩, .error (RuntimeError.new
        ("Failed to write to file \x27a.txt\x27: disk full"))) :=
  (C2_no_partial_mutation_on_disk_failure ⟨[("f", ⟨"a.txt", "old", true⟩)]⟩
      "f" "new" "" "" "" "disk full" (fun _ _ => .error "disk full")
      (fun _ _ => .error "disk full") (fun _ _ => .error "disk full")
      ⟨fun _ => .error "x"⟩).1 ⟨"a.txt", "old", true⟩ rfl rfl

/-- C3: every content operation (`read`, `write`, `append`, `truncate`,
`search`, `replace`, `line_count`, `rename`, and `get_file_content` as used
by `show`) demands an open entry: on an absent variable it fails with the
no-such-variable error and on a closed entry with the file-is-not-open
error, in both cases leaving the environment unchanged. -/
theorem C3_operations_require_open (env : Environment)
    (v text newf pat repl : String)
    (readF : String → Except String String)
    (writeF appendF renameF : String → String → Except String Unit)
    (engine : RegexEngine)
    (err : RuntimeError) :
    ((env.files.lookup v = none →
        err = RuntimeError.new ("No such variable \x27" ++ v ++ "\x27")) →
     (∀ e : FileEntry, env.files.lookup v = some e → e.is_open = false →
        err = RuntimeError.new
          ("Variable \x27" ++ v ++ "\x27 file is not open.")) →
     (env.files.lookup v = none ∨
        (∃ e : FileEntry, env.files.lookup v = some e ∧ e.is_open = false)) →
      (Environment.read_file_content readF env v = (env, .error err) ∧
       Environment.write_file_content writeF env v text = (env, .error err) ∧
       Environment.append_file_content appendF env v text = (env, .error err) ∧
       Environment.truncate_file writeF env v = (env, .error err) ∧
       Environment.search_file engine env v pat = .error err ∧
       Environment.replace_file engine writeF env v pat repl = (env, .error err) ∧
       env.line_count v = .error err ∧
       Environment.rename_file renameF env v newf = (env, .error err) ∧
       env.get_file_content v = .error err)) := by
  intro habs hclosed hcase
  have hge : env.get_entry v = .error err := by
    rcases hcase with h | ⟨e, he, hc⟩
    · rw [get_entry_absent h, habs h]
    · rw [get_entry_closed he hc, hclosed e he hc]
  refine ⟨?_, ?_, ?_, ?_, ?_, ?_, ?_, ?_, ?_⟩
  · simp only [Environment.read_file_content, hge]
  · simp only [Environment.write_file_content, hge]
  · simp only [Environment.append_file_content, hge]
  · simp only [Environment.truncate_file, hge]
  · simp only [Environment.search_file, hge]
  · simp only [Environment.replace_file, hge]
  · simp only [Environment.line_count, hge]
  · simp only [Environment.rename_file, hge]
  · simp only [Environment.get_file_content, hge]

/-- Witness for C3: reading an unbound variable fails with the
no-such-variable error and leaves the empty environment unchanged. -/
theorem C3_operations_require_open_witness :
    Environment.read_file_content (fun _ => .error "") ⟨[]⟩ "x" =
      (⟨[]⟩, .error (RuntimeError.new ("No such variable \x27x\x27"))) :=
  (C3_operations_require_open ⟨[]⟩ "x" "" "" "" "" (fun _ => .error "")
      (fun _ _ => .error "") (fun _ _ => .error "") (fun _ _ => .error "")
      ⟨fun _ => .error ""⟩ (RuntimeError.new ("No such variable \x27x\x27"))
      (fun _ => rfl) (fun _ he _ => nomatch he) (Or.inl rfl)).1

/-- C4: the run loop aborts on the first failing statement: if executing a
prefix ends in an error, appending further statements changes nothing — the
same state, output and error are produced and no later statement
contributes. -/
theorem C4_run_aborts_on_first_error (o : Oracle) (p r : List Statement)
    (it : Interpreter) (e : RuntimeError)
    (h : (Interpreter.run o it p).2.2 = .error e) :
    Interpreter.run o it (p ++ r) = Interpreter.run o it p := by
  induction p generalizing it with
  | nil => simp [Interpreter.run] at h
  | cons stmt rest ih =>
    rw [List.cons_append]
    by_cases hstop : it.stop = true
    · simp [Interpreter.run, hstop] at h
    · rcases hex : Interpreter.execute_statement o it stmt with ⟨it2, out, res⟩
      cases res with
      | error e2 =>
        simp only [Interpreter.run, hstop, if_false, hex] at h ⊢
      | ok u =>
        simp only [Interpreter.run, hstop, if_false, hex] at h ⊢
        rw [ih it2 h]

/-- Witness for C4: a failing first statement makes the run of a longer
program coincide with the run of just that statement. -/
theorem C4_run_aborts_on_first_error_witness :
    Interpreter.run
        ⟨⟨fun _ => .error ""⟩, fun _ => .error "no disk", fun _ _ => .error "",
          fun _ _ => .error "", fun _ _ => .error "", fun _ _ => .error "",
          fun _ _ => .error "", fun _ => .error "", fun _ => .error ""⟩
        ⟨⟨[]⟩, false⟩
        ([Statement.Read ⟨"x"⟩] ++ [Statement.Help ⟨⟩]) =
      Interpreter.run
        ⟨⟨fun _ => .error ""⟩, fun _ => .error "no disk", fun _ _ => .error "",
          fun _ _ => .error "", fun _ _ => .error "", fun _ _ => .error "",
          fun _ _ => .error "", fun _ => .error "", fun _ => .error ""⟩
        ⟨⟨[]⟩, false⟩ [Statement.Read ⟨"x"⟩] :=
  C4_run_aborts_on_first_error _ [Statement.Read ⟨"x"⟩] [Statement.Help ⟨⟩]
    ⟨⟨[]⟩, false⟩ (RuntimeError.new ("No such variable \x27x\x27")) rfl

/-- C5: executing `exit` only sets the stop flag and never fails; a stopped
interpreter discards every remaining statement and the run returns success;
consequently everything after an `exit` statement is dead — the run of any
program continuing past an `exit` equals the run that ends at that
`exit`. -/
theorem C5_exit_sets_stop_flag_and_halts (o : Oracle) (p r : List Statement)
    (it : Interpreter) :
    (Interpreter.execute_statement o it (.Exit ⟨⟩) =
      ({ it with stop := true }, [], .ok ())) ∧
    (it.stop = true → Interpreter.run o it p = (it, [], .ok ())) ∧
    (Interpreter.run o it (p ++ .Exit ⟨⟩ :: r) =
      Interpreter.run o it (p ++ [.Exit ⟨⟩])) := by
  have hstopped : ∀ (it' : Interpreter) (l : List Statement),
      it'.stop = true → Interpreter.run o it' l = (it', [], .ok ()) := by
    intro it' l hs
    cases l with
    | nil => rfl
    | cons a l => simp [Interpreter.run, hs]
  refine ⟨rfl, hstopped it p, ?_⟩
  induction p generalizing it with
  | nil =>
    rw [List.nil_append, List.nil_append]
    by_cases hstop : it.stop = true
    · rw [hstopped it _ hstop, hstopped it _ hstop]
    · simp only [Interpreter.run, hstop, if_false, Interpreter.execute_statement]
      rw [hstopped ⟨it.env, true⟩ r rfl]
  | cons stmt rest ih =>
    rw [List.cons_append, List.cons_append]
    by_cases hstop : it.stop = true
    · rw [hstopped it _ hstop, hstopped it _ hstop]
    · rcases hex : Interpreter.execute_statement o it stmt with ⟨it2, out, res⟩
      cases res with
      | error e2 =>
        simp only [Interpreter.run, hstop, if_false, hex]
      | ok u =>
        simp only [Interpreter.run, hstop, if_false, hex]
        rw [ih it2]

/-- Witness for C5: a stopped interpreter ignores a pending statement. -/
theorem C5_exit_sets_stop_flag_and_halts_witness :
    Interpreter.run
        ⟨⟨fun _ => .error ""⟩, fun _ => .error "", fun _ _ => .error "",
          fun _ _ => .error "", fun _ _ => .error "", fun _ _ => .error "",
          fun _ _ => .error "", fun _ => .error "", fun _ => .error ""⟩
        ⟨⟨[]⟩, true⟩ [Statement.Help ⟨⟩] = (⟨⟨[]⟩, true⟩, [], .ok ()) :=
  (C5_exit_sets_stop_flag_and_halts _ [Statement.Help ⟨⟩] [] ⟨⟨[]⟩, true⟩).2.1 rfl

/-- C8: executing `search` on an open variable with a pattern the regex
engine compiles prints exactly "No matches found." when no line of the
in-memory content matches, and otherwise one line "line_number: line_text"
per matching line, with 1-indexed line numbers in source order; the
interpreter state is unchanged and the statement succeeds. -/
theorem C8_search_output (o : Oracle) (it : Interpreter)
    (v pat fn content : String) (re : Regex)
    (hv : it.env.files.lookup v = some ⟨fn, content, true⟩)
    (hc : o.engine.compile pat = .ok re) :
    Interpreter.execute_statement o it (.Search ⟨v, pat⟩) =
      (it,
        (if ((rustLines content).enum.filterMap
            (fun p => if re.is_match p.2 then some (p.1 + 1, p.2) else none)).isEmpty
         then ["No matches found."]
         else ((rustLines content).enum.filterMap
            (fun p => if re.is_match p.2 then some (p.1 + 1, p.2) else none)).map
              (fun p => toString p.1 ++ ": " ++ p.2)),
        .ok ()) := by
  simp only [Interpreter.execute_statement, Environment.search_file,
    get_entry_open hv rfl, search_in_text, hc]

/-- Witness for C8 with a never-matching regex on one line of content. -/
theorem C8_search_output_witness :
    Interpreter.execute_statement
        ⟨⟨fun _ => .ok ⟨fun _ => false, fun t _ => t⟩⟩, fun _ => .error "",
          fun _ _ => .error "", fun _ _ => .error "", fun _ _ => .error "",
          fun _ _ => .error "", fun _ _ => .error "", fun _ => .error "",
          fun _ => .error ""⟩
        ⟨⟨[("f", ⟨"a.txt", "x", true⟩)]⟩, false⟩ (.Search ⟨"f", "xyz"⟩) =
      (⟨⟨[("f", ⟨"a.txt", "x", true⟩)]⟩, false⟩,
        (if ((rustLines "x").enum.filterMap
            (fun p => if (false : Bool) then some (p.1 + 1, p.2) else none)).isEmpty
         then ["No matches found."]
         else ((rustLines "x").enum.filterMap
            (fun p => if (false : Bool) then some (p.1 + 1, p.2) else none)).map
              (fun p => toString p.1 ++ ": " ++ p.2)),
        .ok ()) :=
  C8_search_output
    ⟨⟨fun _ => .ok ⟨fun _ => false, fun t _ => t⟩⟩, fun _ => .error "",
      fun _ _ => .error "", fun _ _ => .error "", fun _ _ => .error "",
      fun _ _ => .error "", fun _ _ => .error "", fun _ => .error "",
      fun _ => .error ""⟩
    ⟨⟨[("f", ⟨"a.txt", "x", true⟩)]⟩, false⟩ "f" "xyz" "a.txt" "x"
    ⟨fun _ => false, fun t _ => t⟩ rfl rfl

/-- One step of the parse loop on a stray end-of-statement token: it is
consumed silently. -/
theorem parseLoop_cons_eos (q p : Nat) (r : List Token) :
    parseLoop ⟨⟨.EndOfStatement, q⟩ :: r, p⟩ = parseLoop ⟨r, p + 1⟩ := by
  conv_lhs => rw [parseLoop.eq_def]

/-- After a successfully parsed statement whose following token is neither
an end-of-statement marker nor the end of input, the parse loop fails with
the expected-end-of-statement error. -/
theorem parseLoop_expected_eos (r r2 : List Token) (p : Nat)
    (tk tk2 : Token) (stmt : Statement) (st' : ParserState)
    (hps : parse_statement tk r p = .ok (stmt, st'))
    (h2 : st'.rest = tk2 :: r2)
    (hk2 : tk2.kind ≠ .EndOfStatement) :
    parseLoop ⟨tk :: r, p⟩ = .error (ParseError.new
      ("Expected end of statement at position " ++ toString st'.pos
        ++ " but found " ++ debugKind tk2.kind)) := by
  have hne : tk.kind ≠ .EndOfStatement := by
    intro hk
    rcases tk with ⟨k, qq⟩
    simp only [] at hk
    subst hk
    simp [parse_statement] at hps
  rcases tk with ⟨k, q⟩
  rcases tk2 with ⟨k2, q2⟩
  rw [parseLoop.eq_def]
  cases k <;> first
    | exact absurd rfl hne
    | (simp only []
       split
       · rename_i e heq
         rw [hps] at heq
         cases heq
       · rename_i s2 st2 heq
         rw [hps] at heq
         injection heq with hpair
         cases hpair
         split
         · rename_i heq2
           rw [h2] at heq2
           cases heq2
         · rename_i tk2x r2x heq2
           rw [h2] at heq2
           injection heq2 with h6 h7
           subst h6
           subst h7
           cases k2 <;> first
             | exact absurd rfl hk2
             | rfl)

/-- A token stream of end-of-statement tokens only parses to no
statements. -/
theorem parseLoop_all_eos : ∀ (toks : List Token) (p : Nat),
    (∀ t ∈ toks, t.kind = .EndOfStatement) → parseLoop ⟨toks, p⟩ = .ok [] := by
  intro toks
  induction toks with
  | nil =>
    intro p _
    rw [parseLoop.eq_def]
  | cons t r ih =>
    intro p hall
    have ht : t.kind = .EndOfStatement := hall t (by simp)
    rcases t with ⟨k, q⟩
    simp only [] at ht
    subst ht
    rw [parseLoop_cons_eos q p r]
    exact ih (p + 1) (fun t htm => hall t (List.mem_cons_of_mem _ htm))

/-- C6: the parser silently consumes leading and stray end-of-statement
tokens; after a parsed statement the next token must be an end-of-statement
marker or the end of input, and any other token there is the
expected-end-of-statement parse error; consequently a token stream of only
end-of-statement tokens (a script of only comments and blank lines) parses
to an empty statement list. -/
theorem C6_parser_separator_discipline (q p : Nat) (r r2 : List Token)
    (tk tk2 : Token) (stmt : Statement) (st' : ParserState)
    (toks : List Token) :
    (parseLoop ⟨⟨.EndOfStatement, q⟩ :: r, p⟩ = parseLoop ⟨r, p + 1⟩) ∧
    (parse_statement tk r p = .ok (stmt, st') → st'.rest = tk2 :: r2 →
      tk2.kind ≠ .EndOfStatement →
      parseLoop ⟨tk :: r, p⟩ = .error (ParseError.new
        ("Expected end of statement at position " ++ toString st'.pos
          ++ " but found " ++ debugKind tk2.kind))) ∧
    ((∀ t ∈ toks, t.kind = .EndOfStatement) → Parser.parse toks = .ok ⟨[]⟩) := by
  refine ⟨parseLoop_cons_eos q p r, ?_, ?_⟩
  · intro hps h2 hk2
    exact parseLoop_expected_eos r r2 p tk tk2 stmt st' hps h2 hk2
  · intro hall
    unfold Parser.parse
    rw [parseLoop_all_eos toks 0 hall]

/-- Witness for C6: a stream of a single end-of-statement token parses to
the empty statement list. -/
theorem C6_parser_separator_discipline_witness :
    Parser.parse [⟨.EndOfStatement, 0⟩] = .ok ⟨[]⟩ :=
  (C6_parser_separator_discipline 0 0 [] [] ⟨.Exit, 0⟩ ⟨.Exit, 0⟩ (.Exit ⟨⟩)
      ⟨[], 0⟩ [⟨.EndOfStatement, 0⟩]).2.2 (by decide)

/-- The strings the lexer recognizes as keywords: the eighteen command
keywords plus `as` (lexer.rs `ident_to_keyword_or_identifier`). -/
def fileLangKeywords : List String :=
  ["open", "read", "write", "append", "show", "close", "exit", "as",
   "truncate", "search", "replace", "linecount", "copy", "move", "remove",
   "rename", "listdir", "dumpenv", "help"]

/-- Text whose lowercase form is not a keyword lexes to an `Identifier`
carrying the original-case text. -/
theorem ident_to_keyword_not_keyword {s : String}
    (h : strToLower s ∉ fileLangKeywords) :
    ident_to_keyword_or_identifier s = .Identifier s := by
  unfold ident_to_keyword_or_identifier
  split
  all_goals first
    | rfl
    | (rename_i heq; exact absurd (by rw [heq]; decide) h)

/-- Text whose lowercase form is a keyword never lexes to an
`Identifier`. -/
theorem ident_to_keyword_keyword {s : String}
    (h : strToLower s ∈ fileLangKeywords) :
    ∀ t, ident_to_keyword_or_identifier s ≠ .Identifier t := by
  intro t hcontra
  unfold ident_to_keyword_or_identifier at hcontra
  split at hcontra
  all_goals try (cases hcontra)
  simp_all [fileLangKeywords]

/-- An alphabetic character is not whitespace. -/
theorem isAlpha_not_ws {c : Char} (h : c.isAlpha = true) :
    c.isWhitespace = false := by
  by_contra hws
  rw [Bool.not_eq_false] at hws
  simp [Char.isWhitespace] at hws
  rcases hws with ((h1 | h1) | h1) | h1 <;>
    (subst h1; exact absurd h (by decide))

/-- An alphabetic character differs from any concrete non-alphabetic
character. -/
theorem isAlpha_ne {c d : Char} (h : c.isAlpha = true)
    (hd : d.isAlpha = false) : ¬(c = d) := by
  intro he
  subst he
  rw [h] at hd
  cases hd

/-- C7 counterexample: the nineteen pairwise-distinct keyword strings are
each recognized as keywords (never lexed to an Identifier), so the set of
recognized keyword strings cannot be any sixteen-element set — in
particular not "the fifteen command keywords plus `as`". -/
theorem C7_counterexample :
    ¬ ∃ K : Finset String, K.card = 16 ∧
      (∀ s : String,
        (∀ t, ident_to_keyword_or_identifier s ≠ .Identifier t) ↔ s ∈ K) := by
  rintro ⟨K, hcard, hK⟩
  have hsub : fileLangKeywords.toFinset ⊆ K := by
    intro s hs
    rw [List.mem_toFinset] at hs
    rw [← hK s]
    simp only [fileLangKeywords, List.mem_cons, List.not_mem_nil, or_false] at hs
    rcases hs with rfl | rfl | rfl | rfl | rfl | rfl | rfl | rfl | rfl | rfl |
      rfl | rfl | rfl | rfl | rfl | rfl | rfl | rfl | rfl
    all_goals exact fun _ h => nomatch h
  have hle := Finset.card_le_card hsub
  have hc19 : fileLangKeywords.toFinset.card = 19 := by decide
  rw [hc19, hcard] at hle
  omega

/-- C7 (amended): when the lexer reads an alphabetic character it
accumulates text while characters are alphanumeric, underscore, hyphen or
dot; the accumulated text is matched case-insensitively against exactly the
eighteen command keywords plus `as`, and any text whose lowercased form is
none of those nineteen becomes an Identifier token carrying the
original-case text. -/
theorem C7_identifier_lexing (c : Char) (cs : List Char) (pos : Nat)
    (s : String) :
    (is_identifier_char c = (c.isAlphanum || c = '_' || c = '-' || c = '.')) ∧
    (c.isAlpha = true →
      lexLoop (c :: cs) pos =
        (lexLoop ((c :: cs).dropWhile is_identifier_char)
            (pos + utf8Len ((c :: cs).takeWhile is_identifier_char))).map
          (fun ts =>
            Token.new
              (ident_to_keyword_or_identifier
                ⟨(c :: cs).takeWhile is_identifier_char⟩)
              pos :: ts)) ∧
    (strToLower s ∉ fileLangKeywords →
      ident_to_keyword_or_identifier s = .Identifier s) ∧
    (strToLower s ∈ fileLangKeywords →
      ∀ t, ident_to_keyword_or_identifier s ≠ .Identifier t) := by
  refine ⟨rfl, ?_, ident_to_keyword_not_keyword, ident_to_keyword_keyword⟩
  intro ha
  have hw1 : ¬((c.isWhitespace && c != '\n') = true) := by
    simp [isAlpha_not_ws ha]
  have hq : ¬(c = '"') := isAlpha_ne ha (by decide)
  rw [lexLoop.eq_2]
  rw [dif_neg hw1, dif_neg hq, dif_pos ha]

/-- Witness for C7: a non-keyword word is an Identifier with its original
case. -/
theorem C7_identifier_lexing_witness :
    ident_to_keyword_or_identifier "myfile" = .Identifier "myfile" :=
  (C7_identifier_lexing 'a' [] 0 "myfile").2.2.1 (by decide)

/-- Modelled from the spec: the canonical re-serialization of one token
kind ("canonical keyword casing and quoting", which the repository itself
does not implement): keywords in their lowercase spelling, identifiers
verbatim, string payloads re-quoted, end-of-statement as a newline. -/
def canonicalTokenText : TokenKind → String
  | .Open => "open"
  | .Read => "read"
  | .Write => "write"
  | .Append => "append"
  | .Close => "close"
  | .Show => "show"
  | .Exit => "exit"
  | .As => "as"
  | .Truncate => "truncate"
  | .Search => "search"
  | .Replace => "replace"
  | .LineCount => "linecount"
  | .Copy => "copy"
  | .Move => "move"
  | .Remove => "remove"
  | .Rename => "rename"
  | .ListDir => "listdir"
  | .DumpEnv => "dumpenv"
  | .Help => "help"
  | .Identifier s => s
  | .Str s => "\"" ++ s ++ "\""
  | .EndOfStatement => "\n"

/-- Modelled from the spec: re-serialize a token sequence to source text,
with one space after every token so adjacent tokens stay separate. -/
def serializeTokens : List Token → String
  | [] => ""
  | t :: ts => canonicalTokenText t.kind ++ " " ++ serializeTokens ts

/-- The payload well-formedness under which a token survives re-lexing: an
Identifier's text must be a nonempty identifier-character word starting
with an alphabetic character whose lowercase form is not a keyword, and a
string literal's text must not contain a double quote; all other kinds are
always well-formed. -/
def wellFormedKind : TokenKind → Bool
  | .Identifier s =>
    (match s.data with
     | [] => false
     | c :: _ => c.isAlpha)
    && s.data.all is_identifier_char
    && !(fileLangKeywords.contains (strToLower s))
  | .Str s => !(s.data.contains '"')
  | _ => true

/-- `takeWhile`/`dropWhile` on a word all of whose characters satisfy the
predicate, followed by a delimiter that does not. -/
theorem takeWhile_append_delim {p : Char → Bool} (w : List Char) (d : Char)
    (cs : List Char) (hall : ∀ x ∈ w, p x = true) (hd : p d = false) :
    (w ++ d :: cs).takeWhile p = w ∧ (w ++ d :: cs).dropWhile p = d :: cs := by
  induction w with
  | nil => simp [List.takeWhile_cons, List.dropWhile_cons, hd]
  | cons a w ih =>
    have ha : p a = true := hall a (by simp)
    have htail := ih (fun x hx => hall x (by simp [hx]))
    simp [List.takeWhile_cons, List.dropWhile_cons, ha, htail.1, htail.2]

/-- One lexer step on an alphabetic head: the identifier branch fires. -/
theorem lexLoop_alpha (c : Char) (cs : List Char) (pos : Nat)
    (ha : c.isAlpha = true) :
    lexLoop (c :: cs) pos =
      (lexLoop ((c :: cs).dropWhile is_identifier_char)
          (pos + utf8Len ((c :: cs).takeWhile is_identifier_char))).map
        (fun ts =>
          Token.new
            (ident_to_keyword_or_identifier ⟨(c :: cs).takeWhile is_identifier_char⟩)
            pos :: ts) := by
  have hw1 : ¬((c.isWhitespace && c != '\n') = true) := by
    simp [isAlpha_not_ws ha]
  have hq : ¬(c = '"') := isAlpha_ne ha (by decide)
  rw [lexLoop.eq_2, dif_neg hw1, dif_neg hq, dif_pos ha]

/-- One lexer step on a space: skipped, advancing one byte. -/
theorem lexLoop_space (cs : List Char) (q : Nat) :
    lexLoop (' ' :: cs) q = lexLoop cs (q + 1) := by
  rw [lexLoop.eq_2, dif_pos (by decide)]
  rfl

/-- One lexer step on a newline: an end-of-statement token. -/
theorem lexLoop_newline (cs : List Char) (pos : Nat) :
    lexLoop ('\n' :: cs) pos =
      (lexLoop cs (pos + 1)).map
        (fun ts => Token.new .EndOfStatement pos :: ts) := by
  rw [lexLoop.eq_2, dif_neg (by decide), dif_neg (by decide),
    dif_neg (by decide), dif_pos rfl]

/-- Lexing a space-delimited identifier-character word with alphabetic head
produces one keyword-or-identifier token and continues after the space. -/
theorem lexLoop_word (c : Char) (w cs : List Char) (pos : Nat)
    (ha : c.isAlpha = true)
    (hall : ∀ x ∈ c :: w, is_identifier_char x = true) :
    lexLoop ((c :: w) ++ ' ' :: cs) pos =
      (lexLoop cs (pos + utf8Len (c :: w) + 1)).map
        (fun ts =>
          Token.new (ident_to_keyword_or_identifier ⟨c :: w⟩) pos :: ts) := by
  have htd := takeWhile_append_delim (c :: w) ' ' cs hall (by decide)
  simp only [List.cons_append] at htd
  rw [List.cons_append]
  rw [lexLoop_alpha c (w ++ ' ' :: cs) pos ha]
  rw [htd.1, htd.2]
  rw [lexLoop_space]

/-- Lexing a quoted string literal free of inner quotes, followed by a
space, produces one string token and continues after the space. -/
theorem lexLoop_string_lit (sdata cs : List Char) (pos : Nat)
    (hq : ∀ x ∈ sdata, ¬(x = '"')) :
    lexLoop ('"' :: (sdata ++ '"' :: ' ' :: cs)) pos =
      (lexLoop cs (pos + 1 + utf8Len sdata + 1 + 1)).map
        (fun ts => Token.new (.Str ⟨sdata⟩) pos :: ts) := by
  have htd := takeWhile_append_delim (p := fun x => x != '"') sdata '"'
    (' ' :: cs) (by intro x hx; simpa using hq x hx) (by decide)
  rw [lexLoop.eq_2, dif_neg (by decide), dif_pos rfl]
  split
  · rename_i heq
    rw [htd.2] at heq
    cases heq
  · rename_i qc r2 heq
    rw [htd.2] at heq
    injection heq with h1 h2
    subst h2
    rw [htd.1]
    rw [lexLoop_space]

/-- One serialized token lexes back to exactly that token kind, advancing
past its text and the following space. -/
theorem lexStep (k : TokenKind) (cs : List Char) (pos : Nat)
    (hwf : wellFormedKind k = true) :
    lexLoop ((canonicalTokenText k).data ++ ' ' :: cs) pos =
      (lexLoop cs (pos + utf8Len (canonicalTokenText k).data + 1)).map
        (fun ts => Token.new k pos :: ts) := by
  cases k with
  | Open =>
    rw [show (canonicalTokenText TokenKind.Open).data = 'o' :: ['p', 'e', 'n'] from rfl]
    rw [lexLoop_word 'o' ['p', 'e', 'n'] cs pos (by decide) (by decide)]
    rfl
  | Read =>
    rw [show (canonicalTokenText TokenKind.Read).data = 'r' :: ['e', 'a', 'd'] from rfl]
    rw [lexLoop_word 'r' ['e', 'a', 'd'] cs pos (by decide) (by decide)]
    rfl
  | Write =>
    rw [show (canonicalTokenText TokenKind.Write).data = 'w' :: ['r', 'i', 't', 'e'] from rfl]
    rw [lexLoop_word 'w' ['r', 'i', 't', 'e'] cs pos (by decide) (by decide)]
    rfl
  | Append =>
    rw [show (canonicalTokenText TokenKind.Append).data = 'a' :: ['p', 'p', 'e', 'n', 'd'] from rfl]
    rw [lexLoop_word 'a' ['p', 'p', 'e', 'n', 'd'] cs pos (by decide) (by decide)]
    rfl
  | Close =>
    rw [show (canonicalTokenText TokenKind.Close).data = 'c' :: ['l', 'o', 's', 'e'] from rfl]
    rw [lexLoop_word 'c' ['l', 'o', 's', 'e'] cs pos (by decide) (by decide)]
    rfl
  | Show =>
    rw [show (canonicalTokenText TokenKind.Show).data = 's' :: ['h', 'o', 'w'] from rfl]
    rw [lexLoop_word 's' ['h', 'o', 'w'] cs pos (by decide) (by decide)]
    rfl
  | Exit =>
    rw [show (canonicalTokenText TokenKind.Exit).data = 'e' :: ['x', 'i', 't'] from rfl]
    rw [lexLoop_word 'e' ['x', 'i', 't'] cs pos (by decide) (by decide)]
    rfl
  | As =>
    rw [show (canonicalTokenText TokenKind.As).data = 'a' :: ['s'] from rfl]
    rw [lexLoop_word 'a' ['s'] cs pos (by decide) (by decide)]
    rfl
  | Truncate =>
    rw [show (canonicalTokenText TokenKind.Truncate).data = 't' :: ['r', 'u', 'n', 'c', 'a', 't', 'e'] from rfl]
    rw [lexLoop_word 't' ['r', 'u', 'n', 'c', 'a', 't', 'e'] cs pos (by decide) (by decide)]
    rfl
  | Search =>
    rw [show (canonicalTokenText TokenKind.Search).data = 's' :: ['e', 'a', 'r', 'c', 'h'] from rfl]
    rw [lexLoop_word 's' ['e', 'a', 'r', 'c', 'h'] cs pos (by decide) (by decide)]
    rfl
  | Replace =>
    rw [show (canonicalTokenText TokenKind.Replace).data = 'r' :: ['e', 'p', 'l', 'a', 'c', 'e'] from rfl]
    rw [lexLoop_word 'r' ['e', 'p', 'l', 'a', 'c', 'e'] cs pos (by decide) (by decide)]
    rfl
  | LineCount =>
    rw [show (canonicalTokenText TokenKind.LineCount).data = 'l' :: ['i', 'n', 'e', 'c', 'o', 'u', 'n', 't'] from rfl]
    rw [lexLoop_word 'l' ['i', 'n', 'e', 'c', 'o', 'u', 'n', 't'] cs pos (by decide) (by decide)]
    rfl
  | Copy =>
    rw [show (canonicalTokenText TokenKind.Copy).data = 'c' :: ['o', 'p', 'y'] from rfl]
    rw [lexLoop_word 'c' ['o', 'p', 'y'] cs pos (by decide) (by decide)]
    rfl
  | Move =>
    rw [show (canonicalTokenText TokenKind.Move).data = 'm' :: ['o', 'v', 'e'] from rfl]
    rw [lexLoop_word 'm' ['o', 'v', 'e'] cs pos (by decide) (by decide)]
    rfl
  | Remove =>
    rw [show (canonicalTokenText TokenKind.Remove).data = 'r' :: ['e', 'm', 'o', 'v', 'e'] from rfl]
    rw [lexLoop_word 'r' ['e', 'm', 'o', 'v', 'e'] cs pos (by decide) (by decide)]
    rfl
  | Rename =>
    rw [show (canonicalTokenText TokenKind.Rename).data = 'r' :: ['e', 'n', 'a', 'm', 'e'] from rfl]
    rw [lexLoop_word 'r' ['e', 'n', 'a', 'm', 'e'] cs pos (by decide) (by decide)]
    rfl
  | ListDir =>
    rw [show (canonicalTokenText TokenKind.ListDir).data = 'l' :: ['i', 's', 't', 'd', 'i', 'r'] from rfl]
    rw [lexLoop_word 'l' ['i', 's', 't', 'd', 'i', 'r'] cs pos (by decide) (by decide)]
    rfl
  | DumpEnv =>
    rw [show (canonicalTokenText TokenKind.DumpEnv).data = 'd' :: ['u', 'm', 'p', 'e', 'n', 'v'] from rfl]
    rw [lexLoop_word 'd' ['u', 'm', 'p', 'e', 'n', 'v'] cs pos (by decide) (by decide)]
    rfl
  | Help =>
    rw [show (canonicalTokenText TokenKind.Help).data = 'h' :: ['e', 'l', 'p'] from rfl]
    rw [lexLoop_word 'h' ['e', 'l', 'p'] cs pos (by decide) (by decide)]
    rfl
  | Identifier s =>
    simp only [wellFormedKind, Bool.and_eq_true] at hwf
    obtain ⟨⟨hhead, hall⟩, hnk⟩ := hwf
    rcases hsd : s.data with _ | ⟨c, w⟩
    · rw [hsd] at hhead
      simp at hhead
    · have hc : c.isAlpha = true := by
        rw [hsd] at hhead
        simpa using hhead
      have hallm : ∀ x ∈ c :: w, is_identifier_char x = true := by
        rw [hsd] at hall
        simpa [List.all_eq_true] using hall
      have hnk2 : strToLower s ∉ fileLangKeywords := by
        intro hmem
        rw [Bool.not_eq_true'] at hnk
        have hcontra : fileLangKeywords.contains (strToLower s) = true := by
          simpa [List.contains] using List.elem_eq_true_of_mem hmem
        rw [hcontra] at hnk
        cases hnk
      have hseq : (⟨c :: w⟩ : String) = s := by
        rw [← hsd]
      rw [show (canonicalTokenText (TokenKind.Identifier s)).data = s.data from rfl]
      rw [hsd]
      rw [lexLoop_word c w cs pos hc hallm]
      rw [hseq, ident_to_keyword_not_keyword hnk2]
  | Str s =>
    simp only [wellFormedKind] at hwf
    have hq : ∀ x ∈ s.data, ¬(x = '"') := by
      intro x hx hcon
      subst hcon
      rw [Bool.not_eq_true'] at hwf
      have hcontra : s.data.contains '"' = true := by
        simpa [List.contains] using List.elem_eq_true_of_mem hx
      rw [hcontra] at hwf
      cases hwf
    rw [show (canonicalTokenText (TokenKind.Str s)).data =
      '"' :: (s.data ++ ['"']) from ?hdata]
    case hdata =>
      simp [canonicalTokenText, String.data_append]
    rw [show ('"' :: (s.data ++ ['"'])) ++ ' ' :: cs =
      '"' :: (s.data ++ '"' :: ' ' :: cs) from by simp]
    rw [lexLoop_string_lit s.data cs pos hq]
    have harith : pos + 1 + utf8Len s.data + 1 + 1 =
        pos + utf8Len ('"' :: (s.data ++ ['"'])) + 1 := by
      simp [utf8Len]
      have h1 : '"'.utf8Size = 1 := by decide
      rw [h1]
      omega
    rw [harith]
  | EndOfStatement =>
    rw [show (canonicalTokenText TokenKind.EndOfStatement).data = ['\n'] from rfl]
    rw [show ['\n'] ++ ' ' :: cs = '\n' :: ' ' :: cs from rfl]
    rw [lexLoop_newline (' ' :: cs) pos]
    rw [lexLoop_space]
    rfl

/-- The serialization of a token sequence splits into the head token's
text, the delimiting space, and the serialized tail. -/
theorem serializeTokens_cons_data (t : Token) (ts : List Token) :
    (serializeTokens (t :: ts)).data =
      (canonicalTokenText t.kind).data ++ ' ' :: (serializeTokens ts).data := by
  show (canonicalTokenText t.kind ++ " " ++ serializeTokens ts).data = _
  simp [String.data_append, List.append_assoc]

/-- Re-lexing a serialized well-formed token sequence reproduces its kind
sequence. -/
theorem lexLoop_serialize (ts : List Token) (pos : Nat)
    (h : ∀ t ∈ ts, wellFormedKind t.kind = true) :
    ∃ out, lexLoop (serializeTokens ts).data pos = .ok out ∧
      out.map Token.kind = ts.map Token.kind := by
  induction ts generalizing pos with
  | nil =>
    refine ⟨[], ?_, rfl⟩
    rw [show (serializeTokens []).data = [] from rfl, lexLoop.eq_1]
  | cons t rest ih =>
    obtain ⟨out, hout, hkinds⟩ :=
      ih (pos + utf8Len (canonicalTokenText t.kind).data + 1)
        (fun x hx => h x (List.mem_cons_of_mem _ hx))
    refine ⟨Token.new t.kind pos :: out, ?_, by simp [hkinds, Token.new]⟩
    rw [serializeTokens_cons_data, lexStep t.kind _ pos (h t (by simp)), hout]
    rfl

/-- C9 counterexample: serializing the single token `Identifier "Open"`
with canonical casing and quoting and re-lexing yields the `open` keyword
token plus the lexer's appended end-of-statement token — not a sequence
equivalent to the original, whether or not the trailing end-of-statement
token is discounted. -/
theorem C9_counterexample :
    Lexer.lex (serializeTokens [Token.new (.Identifier "Open") 0]).data =
      .ok [Token.new .Open 0, Token.new .EndOfStatement 5] ∧
    [TokenKind.Open, TokenKind.EndOfStatement] ≠
      [TokenKind.Identifier "Open"] ∧
    [TokenKind.Open, TokenKind.EndOfStatement] ≠
      [TokenKind.Identifier "Open", TokenKind.EndOfStatement] ∧
    [TokenKind.Open] ≠ [TokenKind.Identifier "Open"] := by
  refine ⟨?_, by decide, by decide, by decide⟩
  rw [show (serializeTokens [Token.new (.Identifier "Open") 0]).data =
    ('O' :: ['p', 'e', 'n']) ++ ' ' :: [] from rfl]
  unfold Lexer.lex
  rw [lexLoop_word 'O' ['p', 'e', 'n'] [] 0 (by decide) (by decide)]
  rw [lexLoop.eq_1]
  rfl

/-- C9 (amended): for a token sequence whose payloads are well-formed —
each Identifier text a nonempty identifier-character word with alphabetic
head whose lowercase form is not one of the nineteen keywords, each string
payload free of double quotes — re-lexing the canonical serialization
yields exactly the original token kind sequence followed by the lexer's one
appended end-of-statement token (positions ignored by comparing kinds). -/
theorem C9_round_trip_wellformed (ts : List Token)
    (h : ∀ t ∈ ts, wellFormedKind t.kind = true) :
    ∃ out, Lexer.lex (serializeTokens ts).data = .ok out ∧
      out.map Token.kind = ts.map Token.kind ++ [TokenKind.EndOfStatement] := by
  obtain ⟨out, hout, hkinds⟩ := lexLoop_serialize ts 0 h
  refine ⟨out ++ [Token.new .EndOfStatement (utf8Len (serializeTokens ts).data)],
    ?_, ?_⟩
  · unfold Lexer.lex
    rw [hout]
    rfl
  · simp [hkinds, Token.new]

/-- Witness for C9 (amended) on a concrete well-formed sequence: a keyword,
an identifier, a string and a separator. -/
theorem C9_round_trip_wellformed_witness :
    ∃ out,
      Lexer.lex (serializeTokens
        [Token.new TokenKind.Open 0, Token.new (.Str "a b.txt") 5,
          Token.new .As 15, Token.new (.Identifier "File1") 18,
          Token.new .EndOfStatement 23]).data = .ok out ∧
      out.map Token.kind =
        [TokenKind.Open, .Str "a b.txt", .As, .Identifier "File1",
          .EndOfStatement] ++ [TokenKind.EndOfStatement] :=
  C9_round_trip_wellformed
    [Token.new TokenKind.Open 0, Token.new (.Str "a b.txt") 5,
      Token.new .As 15, Token.new (.Identifier "File1") 18,
      Token.new .EndOfStatement 23] (by decide)
